import Mathlib

/-!
Verification of the SB29-guard chrome extension core (`extension/background.js`)
against its natural-language specification.

JavaScript strings are modelled as `List Char`.  The helpers `jsSplit`,
`jsJoin`, `hasSub` mirror `String.prototype.split` (single-character
separator), `Array.prototype.join` and `String.prototype.includes`.
-/

abbrev Str := List Char

/-- Mirrors JS `s.split(sep)` for a one-character separator:
`"".split(".") = [""]`, `"a.b".split(".") = ["a","b"]`. -/
def jsSplit (sep : Char) : Str → List Str
  | [] => [[]]
  | c :: t =>
    if c = sep then [] :: jsSplit sep t
    else
      match jsSplit sep t with
      | [] => [[c]]
      | h :: r => (c :: h) :: r

/-- Mirrors JS `parts.join(sep)` for a one-character separator. -/
def jsJoin (sep : Char) : List Str → Str
  | [] => []
  | [x] => x
  | x :: y :: t => x ++ sep :: jsJoin sep (y :: t)

/-- Mirrors JS `s.includes(pat)` (substring test). -/
def hasSub (pat : Str) : Str → Bool
  | [] => pat.isEmpty
  | c :: t => pat.isPrefixOf (c :: t) || hasSub pat t

/-- Mirrors the JS regex test `/^\d+$/.test(s)`: nonempty and all ASCII digits. -/
def isNumericStr (s : Str) : Bool := !s.isEmpty && s.all Char.isDigit

/-! ## URL model

`URLClass` models the result of the WHATWG `new URL(...)` constructor, keeping
the fields the extension reads: `hostname`, `pathname` and the search
parameters.  `parseURL` is a simplified model of the browser's URL parser
(scheme `://` host `[:port]` `[/path]` `[?query]` `[#fragment]`; no percent
decoding), sufficient for the URLs the specification discusses. -/

structure URLClass where
  hostname : Str
  pathname : Str
  searchParams : List (Str × Str)
deriving DecidableEq, Repr

/-- Consume characters until one of `stop` is met; returns the consumed part
and the remainder (which still starts with the stop character, if any). -/
def takeUntil (stop : List Char) : Str → Str × Str
  | [] => ([], [])
  | c :: t =>
    if c ∈ stop then ([], c :: t)
    else
      let p := takeUntil stop t
      (c :: p.1, p.2)

/-- Locate the first `://`, returning the scheme before it and the remainder. -/
def findSchemeSplit : Str → Option (Str × Str)
  | ':' :: '/' :: '/' :: rest => some ([], rest)
  | c :: t => (findSchemeSplit t).map (fun pr => (c :: pr.1, pr.2))
  | [] => none

/-- Model of `URLSearchParams` construction from a query string. -/
def parseQuery (q : Str) : List (Str × Str) :=
  (jsSplit '&' q).filterMap (fun piece =>
    if piece = [] then none
    else
      let p := takeUntil ['='] piece
      match p.2 with
      | '=' :: v => some (p.1, v)
      | _ => some (p.1, []))

/-- Simplified model of the WHATWG URL parser (the `new URL(s)` constructor):
returns `none` when `s` has no `scheme://` prefix or an empty host. -/
def parseURL (s : Str) : Option URLClass :=
  match findSchemeSplit s with
  | none => none
  | some (scheme, rest) =>
    if scheme ≠ [] ∧ scheme.all Char.isAlpha then
      let auth := takeUntil ['/', '?', '#'] rest
      let host := (takeUntil [':'] auth.1).1.map Char.toLower
      if host = [] then none
      else
        let pr :=
          match auth.2 with
          | '/' :: t =>
            let p := takeUntil ['?', '#'] t
            ('/' :: p.1, p.2)
          | other => (['/'], other)
        let query :=
          match pr.2 with
          | '?' :: qt => (takeUntil ['#'] qt).1
          | _ => []
        some { hostname := host, pathname := pr.1, searchParams := parseQuery query }
    else none

/-- Mirrors `url.searchParams.get(k)`: first value for the key, else null. -/
def queryGet (params : List (Str × Str)) (k : Str) : Option Str :=
  (params.find? (fun pr => pr.1 == k)).map (fun pr => pr.2)

/-! ## URL Classifier (`getDomainInfo` in `background.js`) -/

structure DomainInfo where
  fullHostname : Str
  hostname : Str
  isInstalled : Bool
  appID : Option Str
  isAppStore : Bool
  appStoreName : Option Str
deriving DecidableEq, Repr

/-- `apps.apple.com` branch of the `switch`: last path segment when the path
contains `/app/`. -/
def appleAppID (p : Str) : Option Str :=
  if hasSub "/app/".toList p then
    let parts := jsSplit '/' p
    some (parts.getD (parts.length - 1) [])
  else none

/-- `chromewebstore.google.com` branch: last path segment when the second
path component is `detail`. -/
def chromeAppID (p : Str) : Option Str :=
  let parts := jsSplit '/' p
  if parts.length > 1 ∧ parts.getD 1 [] = "detail".toList then
    some (parts.getD (parts.length - 1) [])
  else none

/-- `play.google.com` branch: the `id` query parameter when the path starts
with `/store/apps/details`. -/
def playAppID (u : URLClass) : Option Str :=
  if "/store/apps/details".toList.isPrefixOf u.pathname then
    queryGet u.searchParams "id".toList
  else none

/-- `workspace.google.com` branch: last path segment when the path has shape
`/marketplace/app/...`, kept only when entirely numeric. -/
def workspaceAppID (p : Str) : Option Str :=
  let parts := jsSplit '/' p
  if parts.length > 2 ∧ parts.getD 1 [] = "marketplace".toList ∧
      parts.getD 2 [] = "app".toList then
    let potential := parts.getD (parts.length - 1) []
    if isNumericStr potential then some potential else none
  else none

/-- The `switch (url.hostname)` of `getDomainInfo`: yields
`(appID, isAppStore, appStoreName)`. -/
def appStoreFields (u : URLClass) : Option Str × Bool × Option Str :=
  if u.hostname = "apps.apple.com".toList then
    (appleAppID u.pathname, true, some "Apple App Store".toList)
  else if u.hostname = "chromewebstore.google.com".toList then
    (chromeAppID u.pathname, true, some "Chrome Web Store".toList)
  else if u.hostname = "play.google.com".toList then
    (playAppID u, true, some "Google Play Store".toList)
  else if u.hostname = "workspace.google.com".toList then
    (workspaceAppID u.pathname, true, some "Google Workspace Marketplace".toList)
  else (none, false, none)

/-- Core of `getDomainInfo` on an already-parsed URL. -/
def getDomainInfoOfURL (u : URLClass) : DomainInfo :=
  let f := appStoreFields u
  let hostnameParts := jsSplit '.' u.hostname
  let hostnameForMatching :=
    if f.2.1 then u.hostname
    else if hostnameParts.length > 1 then
      jsJoin '.' (hostnameParts.drop (hostnameParts.length - 2))
    else u.hostname
  { fullHostname := u.hostname
    hostname := hostnameForMatching
    isInstalled := f.1.isSome
    appID := f.1
    isAppStore := f.2.1
    appStoreName := f.2.2 }

/-- `getDomainInfo(urlString)`: `none` models the JS `null` return (null,
non-string or unparseable input). -/
def getDomainInfo (urlString : Option Str) : Option DomainInfo :=
  match urlString with
  | none => none
  | some s => if s = [] then none else (parseURL s).map getDomainInfoOfURL

example :
    (getDomainInfo (some "https://www.example.com/x".toList)).map DomainInfo.hostname
      = some "example.com".toList := by decide

/-! ## List entries and Status Derivation (`determineOverallStatus`) -/

/-- A DPA list entry; `Option` fields model possibly-missing JSON fields. -/
structure ListEntry where
  resource_link : Option Str
  software_name : Option Str
  current_tl_status : Option Str
  current_dpa_status : Option Str
deriving DecidableEq, Repr

/-- `determineOverallStatus(siteInfo)` from `background.js`. -/
def determineOverallStatus (siteInfo : Option ListEntry) : Str :=
  match siteInfo with
  | none => "unlisted".toList
  | some e =>
    if e.current_tl_status = some "Rejected".toList then "denied".toList
    else if e.current_dpa_status = some "Denied".toList then "staff_only".toList
    else if (e.current_tl_status = some "Approved".toList ∨
             e.current_tl_status = some "Not Required".toList) ∧
            (e.current_dpa_status = some "Received".toList ∨
             e.current_dpa_status = some "Not Required".toList) then
      "approved".toList
    else "pending".toList

/-! ## Match Resolver

The matching predicates and the first-match search duplicated in
`handleTabUpdate` and in the `getSiteInfoForUrl` message listener. -/

/-- Installed-app predicate: the entry's re-classified `resource_link` is also
installed, with an identical `appID`. -/
def installedMatch (d : DomainInfo) (site : ListEntry) : Bool :=
  match getDomainInfo site.resource_link with
  | some sd => sd.isInstalled && sd.appID == d.appID
  | none => false

/-- Hostname predicate: the entry's re-classified `resource_link` is not an
installed app and has the same matching hostname. -/
def hostnameMatch (d : DomainInfo) (site : ListEntry) : Bool :=
  match getDomainInfo site.resource_link with
  | some sd => !sd.isInstalled && sd.hostname == d.hostname
  | none => false

/-- The resolver logic of `handleTabUpdate` / the message listener:
`dpaList.find(...)` under the `isInstalled` / `isAppStore` guards. -/
def resolveEntry (d : DomainInfo) (dpaList : List ListEntry) : Option ListEntry :=
  if d.isInstalled then dpaList.find? (installedMatch d)
  else if !d.isAppStore then dpaList.find? (hostnameMatch d)
  else none

/-! ## Remote List Synchronizer (`authenticate`, `fetchDpaData`,
`getAndUpdateDpaList`)

The persistent `chrome.storage.local` slots are `Storage`; the external fetch
and OAuth collaborators are an oracle `World`.  Successive `fetch` calls
consume `World.responses` in order; effects (fetch count, authentication
calls, cache writes) are recorded explicitly. -/

def CACHE_DURATION_MINUTES : Nat := 60 * 24

/-- The TTL in milliseconds: `CACHE_DURATION_MINUTES * 60 * 1000`. -/
def CACHE_MS : Int := CACHE_DURATION_MINUTES * 60 * 1000

/-- One outcome of the fetch capability: a thrown network error, or a
response with an HTTP status and a JSON body (the list). -/
inductive FetchResult where
  | err : FetchResult
  | resp (status : Nat) (body : List ListEntry) : FetchResult
deriving DecidableEq, Repr

/-- JS `response.ok`: status in 200..299. -/
def respOk (status : Nat) : Prop := 200 ≤ status ∧ status ≤ 299

instance (status : Nat) : Decidable (respOk status) := by
  unfold respOk; infer_instance

/-- The external world: successive fetch outcomes, and the outcomes of the
silent and of the interactive OAuth flow (the `access_token` fragment
parameter of the callback URL, when one is produced). -/
structure World where
  responses : List FetchResult
  silentAuth : Option Str
  interactiveAuth : Option Str
deriving DecidableEq, Repr

/-- The `chrome.storage.local` slots the synchronizer uses. -/
structure Storage where
  supabase_token : Option Str
  dpaList : Option (List ListEntry)
  lastFetch : Option Nat
deriving DecidableEq, Repr

/-- JS truthiness of a nullable string (null/undefined and `""` are falsy). -/
def strTruthy : Option Str → Bool
  | none => false
  | some s => !s.isEmpty

/-- `authenticate(interactive)`: obtain a token from the OAuth flow; a truthy
token is persisted unconditionally; otherwise null, without error. -/
def authenticate (interactive : Bool) (w : World) (st : Storage) :
    Option Str × Storage :=
  let tok := if interactive then w.interactiveAuth else w.silentAuth
  match tok with
  | some t =>
    if t.isEmpty then (none, st)
    else (some t, { st with supabase_token := some t })
  | none => (none, st)

/-- Result of `fetchDpaData`: returned value, updated storage, number of
`fetch` invocations, and the `authenticate` calls made (their
`interactive` flags, in order). -/
structure FetchOut where
  value : Option (List ListEntry)
  state : Storage
  fetchCount : Nat
  authCalls : List Bool
deriving DecidableEq, Repr

/-- Steps 1–2 of `fetchDpaData`: read the persisted token; when falsy, one
silent authentication attempt.  Yields the token, the storage, and the
authentication calls made. -/
def obtainToken (w : World) (st : Storage) : Option Str × Storage × List Bool :=
  if strTruthy st.supabase_token then (st.supabase_token, st, [])
  else
    let a := authenticate false w st
    (a.1, a.2, [false])

/-- The `try { fetch ... }` block of `fetchDpaData`, entered with a truthy
token at hand: first GET; on status 401 one interactive authentication
and, when it yields a token, exactly one retry; `!response.ok` or a thrown
network error yield null. -/
def fetchAttempt (w : World) (st1 : Storage) (auths : List Bool) : FetchOut :=
  match w.responses.getD 0 .err with
  | .err => { value := none, state := st1, fetchCount := 1, authCalls := auths }
  | .resp status body =>
    if status = 401 then
      let a := authenticate true w st1
      match a.1 with
      | some _ =>
        match w.responses.getD 1 .err with
        | .err =>
          { value := none, state := a.2, fetchCount := 2,
            authCalls := auths ++ [true] }
        | .resp s2 b2 =>
          { value := if respOk s2 then some b2 else none, state := a.2,
            fetchCount := 2, authCalls := auths ++ [true] }
      | none =>
        { value := if respOk status then some body else none, state := a.2,
          fetchCount := 1, authCalls := auths ++ [true] }
    else
      { value := if respOk status then some body else none, state := st1,
        fetchCount := 1, authCalls := auths }

/-- `fetchDpaData()`: token lookup, optional silent authentication, GET
request, 401-triggered interactive re-authentication with a single retry. -/
def fetchDpaData (w : World) (st : Storage) : FetchOut :=
  let pre := obtainToken w st
  if strTruthy pre.1 = false then
    { value := none, state := pre.2.1, fetchCount := 0, authCalls := pre.2.2 }
  else fetchAttempt w pre.2.1 pre.2.2

/-- The freshness test of `getAndUpdateDpaList`:
`result.dpaList && result.lastFetch && (now - result.lastFetch < TTL)` —
note an empty array is truthy, while a `0` timestamp is falsy. -/
def cacheFresh (now : Nat) (st : Storage) : Bool :=
  match st.dpaList, st.lastFetch with
  | some _, some f => f != 0 && decide ((now : Int) - (f : Int) < CACHE_MS)
  | _, _ => false

/-- Result of `getAndUpdateDpaList`: value, state, effects, and the cache
writes performed (payload and timestamp of each `storage.local.set`). -/
structure SyncOut where
  value : Option (List ListEntry)
  state : Storage
  fetchCount : Nat
  authCalls : List Bool
  cacheWrites : List (List ListEntry × Nat)
deriving DecidableEq, Repr

/-- `getAndUpdateDpaList()`: fresh-cache short-circuit, else fetch; on success
persist `{dpaList, lastFetch := now}`; on failure fall back to the stale
cached list (or null). -/
def getAndUpdateDpaList (now : Nat) (w : World) (st : Storage) : SyncOut :=
  if cacheFresh now st then
    { value := st.dpaList, state := st, fetchCount := 0, authCalls := [],
      cacheWrites := [] }
  else
    let f := fetchDpaData w st
    match f.value with
    | some l =>
      { value := some l
        state := { f.state with dpaList := some l, lastFetch := some now }
        fetchCount := f.fetchCount, authCalls := f.authCalls
        cacheWrites := [(l, now)] }
    | none =>
      { value := st.dpaList, state := f.state, fetchCount := f.fetchCount,
        authCalls := f.authCalls, cacheWrites := [] }

/-! ## The `getSiteInfoForUrl` message listener -/

inductive QueryResponse where
  | failure (msg : Str) : QueryResponse
  | ok (siteInfo : Option ListEntry) (domainInfo : DomainInfo)
      (overallStatus : Str) : QueryResponse
deriving DecidableEq, Repr

/-- The `getSiteInfoForUrl` branch of the `chrome.runtime.onMessage`
listener: classify, read `dpaList` straight from storage (no fetch is
triggered), resolve with the same logic as `handleTabUpdate`, derive the
status, and reply. -/
def getSiteInfoForUrl (url : Option Str) (st : Storage) : QueryResponse :=
  match getDomainInfo url with
  | none => .failure "Invalid URL provided.".toList
  | some domainInfo =>
    match st.dpaList with
    | none => .failure "DPA data is not yet available.".toList
    | some dpaList =>
      let siteInfo := resolveEntry domainInfo dpaList
      .ok siteInfo domainInfo (determineOverallStatus siteInfo)

/-- First entry of a list satisfying a predicate (spec-side formulation of
"first match in list order wins"). -/
def firstWhere (p : ListEntry → Bool) : List ListEntry → Option ListEntry
  | [] => none
  | e :: rest => if p e then some e else firstWhere p rest

/-! ## Spec-side definitions (written from the specification's words, to be
compared with the definitions translated from the source) -/

/-- Spec: matching key is the full hostname for one of the four fixed
storefront hosts, otherwise the last two dot-separated labels, unless
there are fewer than two labels, in which case the hostname verbatim. -/
def specMatchingKey (host : Str) : Str :=
  if host = "apps.apple.com".toList ∨ host = "chromewebstore.google.com".toList ∨
     host = "play.google.com".toList ∨ host = "workspace.google.com".toList then
    host
  else
    let labels := jsSplit '.' host
    if labels.length < 2 then host
    else jsJoin '.' (labels.drop (labels.length - 2))

/-- Spec: the five status-derivation rules, in strict precedence. -/
def specStatusRules : List ((Option ListEntry → Bool) × Str) :=
  [ (fun e => e.isNone, "unlisted".toList),
    (fun e => match e with
      | some x => decide (x.current_tl_status = some "Rejected".toList)
      | none => false, "denied".toList),
    (fun e => match e with
      | some x => decide (x.current_dpa_status = some "Denied".toList)
      | none => false, "staff_only".toList),
    (fun e => match e with
      | some x => decide
          ((x.current_tl_status = some "Approved".toList ∨
            x.current_tl_status = some "Not Required".toList) ∧
           (x.current_dpa_status = some "Received".toList ∨
            x.current_dpa_status = some "Not Required".toList))
      | none => false, "approved".toList),
    (fun _ => true, "pending".toList) ]

/-- First matching rule wins. -/
def firstMatchStatus : List ((Option ListEntry → Bool) × Str) → Option ListEntry → Str
  | [], _ => []
  | (p, s) :: rest, e => if p e then s else firstMatchStatus rest e

/-- Spec: the resolver, phrased with the spec's three cases and explicit
first-match search. -/
def specResolve (d : DomainInfo) (l : List ListEntry) : Option ListEntry :=
  if d.isInstalled then firstWhere (installedMatch d) l
  else if d.isAppStore = false then firstWhere (hostnameMatch d) l
  else none

/-- Spec: on `workspace.google.com`, the appID is the last path segment
exactly when the path starts with `/marketplace/app/` and that segment is
entirely numeric. -/
def specWorkspaceAppID (p : Str) : Option Str :=
  let segs := jsSplit '/' p
  let lastSeg := segs.getD (segs.length - 1) []
  if "/marketplace/app/".toList.isPrefixOf p ∧ isNumericStr lastSeg then some lastSeg
  else none

/-! ## Concrete sample data used by witnesses and counterexamples -/

/-- A plain-website classification (e.g. of `https://sub.example.com/x`). -/
def exDomain : DomainInfo :=
  { fullHostname := "www.example.com".toList, hostname := "example.com".toList,
    isInstalled := false, appID := none, isAppStore := false, appStoreName := none }

/-- A list entry whose `resource_link` re-classifies to hostname `example.com`. -/
def exEntryHost : ListEntry :=
  { resource_link := some "https://www.example.com/about".toList
    software_name := some "Example".toList
    current_tl_status := some "Approved".toList
    current_dpa_status := some "Received".toList }

/-- A second entry with the same matching hostname but different statuses. -/
def exEntryHost2 : ListEntry :=
  { resource_link := some "https://example.com/other".toList
    software_name := some "Example Two".toList
    current_tl_status := some "Rejected".toList
    current_dpa_status := some "Received".toList }

/-! ## C1 -/

/-! ## C2 -/

/-! ## C3 -/

/-! ## Synchronizer lemmas -/

/-- A token is obtainable without user interaction: a truthy persisted token
or a truthy silent-authentication outcome. -/
def tokenObtainable (w : World) (st : Storage) : Bool :=
  strTruthy st.supabase_token || strTruthy w.silentAuth

/-! ## C4 -/

/-- World for the 401-retry witness: first response 401, retried response
200 with one entry; interactive authentication yields a token. -/
def w401 : World :=
  { responses := [.resp 401 [], .resp 200 [exEntryHost]], silentAuth := none,
    interactiveAuth := some "tokB".toList }

/-- Storage with a persisted token and an empty cache. -/
def stTok : Storage :=
  { supabase_token := some "tokA".toList, dpaList := none, lastFetch := none }

/-! ## C5 -/

/-- World in which every collaborator fails: no responses, no tokens. -/
def wAllFail : World := { responses := [], silentAuth := none, interactiveAuth := none }

/-- Storage holding a one-entry cached list fetched at epoch-ms 100. -/
def stCache : Storage :=
  { supabase_token := none, dpaList := some [exEntryHost], lastFetch := some 100 }

/-! ## C6 -/

/-! ## C9 -/

/-- Storage whose cache slot holds an empty array with timestamp 100. -/
def stEmptyCache : Storage :=
  { supabase_token := none, dpaList := some [], lastFetch := some 100 }

/-! ## C7 -/

/-- Spec-side pipeline for the explicit query, following the specification's
control-flow sentence: Classifier → `Synchronizer.getList()` (with its
refresh-on-stale behaviour) → Resolver → Status Derivation, replying with a
tuple or an error.  Returns the reply and the number of fetch invocations. -/
def specQueryPipeline (url : Option Str) (now : Nat) (w : World) (st : Storage) :
    QueryResponse × Nat :=
  match getDomainInfo url with
  | none => (.failure "Invalid URL provided.".toList, 0)
  | some d =>
    let g := getAndUpdateDpaList now w st
    match g.value with
    | none => (.failure "DPA data is not yet available.".toList, g.fetchCount)
    | some l =>
      let e := resolveEntry d l
      (.ok e d (determineOverallStatus e), g.fetchCount)

/-- World whose single fetch response succeeds with a one-entry list. -/
def wList : World :=
  { responses := [.resp 200 [exEntryHost]], silentAuth := none,
    interactiveAuth := none }

/-! ## C8 -/

/-- A workspace marketplace app URL with numeric id, already parsed. -/
def wsURL : URLClass :=
  { hostname := "workspace.google.com".toList,
    pathname := "/marketplace/app/Foo/123".toList, searchParams := [] }

/-! ## C10 -/

/-- An entry whose apple resource link ends in a slash: its extracted app
identifier is the empty string. -/
def appleEmptyEntry : ListEntry :=
  { resource_link := some "https://apps.apple.com/us/app/foo/".toList,
    software_name := none, current_tl_status := none, current_dpa_status := none }

theorem jsSplit_ne_nil (sep : Char) (l : Str) : jsSplit sep l ≠ [] := by
  induction l with
  | nil => simp [jsSplit]
  | cons c t ih =>
    simp only [jsSplit]
    split
    · simp
    · split
      · simp
      · simp

theorem jsSplit_cons_sep (sep : Char) (t : Str) :
    jsSplit sep (sep :: t) = [] :: jsSplit sep t := by
  simp [jsSplit]

theorem jsSplit_cons_ne (sep c : Char) (t : Str) (h : c ≠ sep) (h2 : Str)
    (hs : List Str) (ht : jsSplit sep t = h2 :: hs) :
    jsSplit sep (c :: t) = (c :: h2) :: hs := by
  simp [jsSplit, h, ht]

theorem jsJoin_jsSplit (sep : Char) (l : Str) : jsJoin sep (jsSplit sep l) = l := by
  induction l with
  | nil => simp [jsSplit, jsJoin]
  | cons c t ih =>
    simp only [jsSplit]
    split
    · rename_i hc
      subst hc
      rcases hh : jsSplit c t with _ | ⟨h2, hs⟩
      · exact absurd hh (jsSplit_ne_nil c t)
      · rw [hh] at ih
        simp only [jsJoin]
        simp [ih]
    · rcases hh : jsSplit sep t with _ | ⟨h2, hs⟩
      · exact absurd hh (jsSplit_ne_nil sep t)
      · rw [hh] at ih
        rcases hs with _ | ⟨s2, ss⟩
        · simp only [jsJoin] at ih ⊢
          rw [ih]
        · simp only [jsJoin] at ih ⊢
          simp [← ih]

/-- Splitting a string that begins with a separator-free chunk followed by the
separator yields that chunk as the first field. -/
theorem jsSplit_chunk (sep : Char) (x : Str) (hx : sep ∉ x) (r : Str) :
    jsSplit sep (x ++ sep :: r) = x :: jsSplit sep r := by
  induction x with
  | nil => simp [jsSplit_cons_sep]
  | cons c t ih =>
    have hc : c ≠ sep := by
      intro h; exact hx (by simp [h])
    have ht : sep ∉ t := fun h => hx (List.mem_cons_of_mem _ h)
    have := ih ht
    simp only [List.cons_append]
    exact jsSplit_cons_ne sep c _ hc _ _ this

/-! ## Helper lemmas -/

theorem jsSplit_mem_not_sep (sep : Char) (l : Str) :
    ∀ x ∈ jsSplit sep l, sep ∉ x := by
  induction l with
  | nil => intro x hx; simp [jsSplit] at hx; simp [hx]
  | cons c t ih =>
    intro x hx
    simp only [jsSplit] at hx
    split at hx
    · simp only [List.mem_cons] at hx
      rcases hx with hx | hx
      · simp [hx]
      · exact ih x hx
    · rename_i hc
      rcases hh : jsSplit sep t with _ | ⟨h2, hs⟩
      · exact absurd hh (jsSplit_ne_nil sep t)
      · rw [hh] at hx
        simp only [List.mem_cons] at hx
        rcases hx with hx | hx
        · subst hx
          intro hmem
          rcases List.mem_cons.mp hmem with h | h
          · exact hc h.symm
          · exact ih h2 (hh ▸ List.mem_cons_self h2 hs) h
        · exact ih x (hh ▸ List.mem_cons_of_mem h2 hx)

theorem isPrefixOf_exists_append {l m : Str} (h : l.isPrefixOf m = true) :
    ∃ t, m = l ++ t := by
  rw [ List.isPrefixOf_iff_prefix] at h
  rcases h with ⟨t, ht⟩
  exact ⟨t, ht.symm⟩

theorem isPrefixOf_append_self (l t : Str) : l.isPrefixOf (l ++ t) = true := by
  rw [ List.isPrefixOf_iff_prefix]
  exact ⟨t, rfl⟩

theorem find?_eq_firstWhere (p : ListEntry → Bool) (l : List ListEntry) :
    l.find? p = firstWhere p l := by
  induction l with
  | nil => simp [firstWhere]
  | cons e rest ih =>
    by_cases hp : p e
    · simp [firstWhere, hp, List.find?_cons_of_pos _ hp]
    · simp [firstWhere, hp, List.find?_cons_of_neg _ hp, ih]

theorem prefix_marketplace_split (rest t : Str)
    (h : rest = "marketplace/app/".toList ++ t) :
    jsSplit '/' rest = "marketplace".toList :: "app".toList :: jsSplit '/' t := by
  subst h
  have e : ("marketplace/app/".toList ++ t) =
      "marketplace".toList ++ '/' :: ("app".toList ++ '/' :: t) := rfl
  rw [e, jsSplit_chunk '/' _ (by decide) _, jsSplit_chunk '/' _ (by decide) _]

theorem workspaceAppID_eq_spec (rest : Str) :
    workspaceAppID ('/' :: rest) = specWorkspaceAppID ('/' :: rest) := by
  have hsegs : jsSplit '/' ('/' :: rest) = [] :: jsSplit '/' rest :=
    jsSplit_cons_sep '/' rest
  rcases hS : jsSplit '/' rest with _ | ⟨s1, S1⟩
  · exact absurd hS (jsSplit_ne_nil _ _)
  rcases S1 with _ | ⟨s2, S2⟩
  · -- one path segment: `rest` contains no slash, so no `/marketplace/app/` prefix
    have hrest : rest = s1 := by
      have hj := jsJoin_jsSplit '/' rest
      rw [hS] at hj
      simpa [jsJoin] using hj.symm
    have hnoslash : '/' ∉ rest := by
      rw [hrest]
      exact jsSplit_mem_not_sep '/' rest s1 (hS ▸ List.mem_cons_self _ _)
    have hpre : "/marketplace/app/".toList.isPrefixOf ('/' :: rest) = false := by
      by_contra hb
      rw [Bool.not_eq_false] at hb
      rcases isPrefixOf_exists_append hb with ⟨t, ht⟩
      have hr : rest = "marketplace/app/".toList ++ t := by simpa using ht
      exact hnoslash (by rw [hr]; simp)
    have hcode : workspaceAppID ('/' :: rest) = none := by
      unfold workspaceAppID
      rw [hsegs, hS]
      simp
    have hspec : specWorkspaceAppID ('/' :: rest) = none := by
      unfold specWorkspaceAppID
      rw [hpre]
      simp
    rw [hcode, hspec]
  rcases S2 with _ | ⟨s3, S3⟩
  · -- exactly two path segments: condition can hold only with last segment "app"
    have hpre : "/marketplace/app/".toList.isPrefixOf ('/' :: rest) = false := by
      by_contra hb
      rw [Bool.not_eq_false] at hb
      rcases isPrefixOf_exists_append hb with ⟨t, ht⟩
      have hr : rest = "marketplace/app/".toList ++ t := by simpa using ht
      have hsp := prefix_marketplace_split rest t hr
      rw [hS] at hsp
      have hnil : ([] : List Str) = jsSplit '/' t := by
        injection hsp with _ h2
        injection h2 with _ h3
      exact jsSplit_ne_nil '/' t hnil.symm
    have hspec : specWorkspaceAppID ('/' :: rest) = none := by
      unfold specWorkspaceAppID
      rw [hpre]
      simp
    have hcode : workspaceAppID ('/' :: rest) = none := by
      by_cases hc : s1 = "marketplace".toList ∧ s2 = "app".toList
      · rcases hc with ⟨h1, h2⟩
        subst h1; subst h2
        unfold workspaceAppID
        rw [hsegs, hS]
        decide
      · unfold workspaceAppID
        rw [hsegs, hS]
        rw [if_neg]
        intro hcond
        exact hc ⟨by simpa using hcond.2.1, by simpa using hcond.2.2⟩
    rw [hcode, hspec]
  · -- at least three path segments
    by_cases hc : s1 = "marketplace".toList ∧ s2 = "app".toList
    · rcases hc with ⟨h1, h2⟩
      subst h1; subst h2
      have hrest : rest = "marketplace/app/".toList ++ jsJoin '/' (s3 :: S3) := by
        have hj := jsJoin_jsSplit '/' rest
        rw [hS] at hj
        rw [← hj]
        rfl
      have hpre : "/marketplace/app/".toList.isPrefixOf ('/' :: rest) = true := by
        rw [hrest]
        exact isPrefixOf_append_self "/marketplace/app/".toList _
      unfold workspaceAppID specWorkspaceAppID
      rw [hsegs, hS, hpre]
      rw [if_pos ⟨by simp only [List.length_cons]; omega, by rfl, by rfl⟩]
      simp
    · have hpre : "/marketplace/app/".toList.isPrefixOf ('/' :: rest) = false := by
        by_contra hb
        rw [Bool.not_eq_false] at hb
        rcases isPrefixOf_exists_append hb with ⟨t, ht⟩
        have hr : rest = "marketplace/app/".toList ++ t := by simpa using ht
        have hsp := prefix_marketplace_split rest t hr
        rw [hS] at hsp
        have h1 : s1 = "marketplace".toList := by
          injection hsp with h1 _
        have h2 : s2 = "app".toList := by
          injection hsp with _ hrest2
          injection hrest2 with h2 _
        exact hc ⟨h1, h2⟩
      have hspec : specWorkspaceAppID ('/' :: rest) = none := by
        unfold specWorkspaceAppID
        rw [hpre]
        simp
      have hcode : workspaceAppID ('/' :: rest) = none := by
        unfold workspaceAppID
        rw [hsegs, hS]
        rw [if_neg]
        intro hcond
        exact hc ⟨by simpa using hcond.2.1, by simpa using hcond.2.2⟩
      rw [hcode, hspec]

/-- C1: for every successfully parsed URL, the matching key (`hostname`
field) is the full hostname on the four fixed storefront hosts, and
otherwise the last two dot-separated labels (the hostname verbatim when it
has fewer than two labels); e.g.
`classify("https://www.example.com/x").hostname = "example.com"`. -/
theorem classifier_matching_key :
    (∀ u : URLClass, (getDomainInfoOfURL u).hostname = specMatchingKey u.hostname)
  ∧ (getDomainInfo (some "https://www.example.com/x".toList)).map DomainInfo.hostname
      = some "example.com".toList := by
  constructor
  · intro u
    unfold getDomainInfoOfURL specMatchingKey appStoreFields
    by_cases h1 : u.hostname = "apps.apple.com".toList
    · simp [h1]
    by_cases h2 : u.hostname = "chromewebstore.google.com".toList
    · simp [h1, h2]
    by_cases h3 : u.hostname = "play.google.com".toList
    · simp [h1, h2, h3]
    by_cases h4 : u.hostname = "workspace.google.com".toList
    · simp [h1, h2, h3, h4]
    · simp only [if_neg h1, if_neg h2, if_neg h3, if_neg h4]
      rw [if_neg (show ¬(u.hostname = "apps.apple.com".toList ∨
            u.hostname = "chromewebstore.google.com".toList ∨
            u.hostname = "play.google.com".toList ∨
            u.hostname = "workspace.google.com".toList) from by
          simp only [not_or]; exact ⟨h1, h2, h3, h4⟩)]
      by_cases hl : 1 < (jsSplit '.' u.hostname).length
      · rw [if_neg (by simp), if_pos hl, if_neg (by omega)]
      · rw [if_neg (by simp), if_neg hl, if_pos (by omega)]
  · decide

/-- C2: `determineOverallStatus` is a pure total function evaluating exactly
the five spec rules in strict precedence, first match wins; in particular
`{tl: "Rejected", dpa: "Received"}` yields `denied`. -/
theorem status_derivation_rules :
    (∀ e : Option ListEntry,
        determineOverallStatus e = firstMatchStatus specStatusRules e)
  ∧ determineOverallStatus (some
      { resource_link := none, software_name := none,
        current_tl_status := some "Rejected".toList,
        current_dpa_status := some "Received".toList }) = "denied".toList := by
  constructor
  · intro e
    cases e with
    | none => simp [determineOverallStatus, firstMatchStatus, specStatusRules]
    | some x =>
      by_cases hr : x.current_tl_status = some "Rejected".toList
      · simp [determineOverallStatus, firstMatchStatus, specStatusRules, hr]
      by_cases hd : x.current_dpa_status = some "Denied".toList
      · simp [determineOverallStatus, firstMatchStatus, specStatusRules, hr, hd]
      by_cases ha : (x.current_tl_status = some "Approved".toList ∨
            x.current_tl_status = some "Not Required".toList) ∧
          (x.current_dpa_status = some "Received".toList ∨
            x.current_dpa_status = some "Not Required".toList)
      · simp [determineOverallStatus, firstMatchStatus, specStatusRules, hr, hd, ha]
      · simp [determineOverallStatus, firstMatchStatus, specStatusRules, hr, hd, ha]
  · decide

/-- C3: the resolver equals the spec's three-case first-match description;
the first matching entry in list order wins in both the installed-app and
the hostname case; and a storefront page without an app id never matches. -/
theorem resolver_first_match_order (d : DomainInfo) (l : List ListEntry) :
    resolveEntry d l = specResolve d l
  ∧ (∀ l₁ e l₂, d.isInstalled = true →
      (∀ x ∈ l₁, installedMatch d x = false) → installedMatch d e = true →
      resolveEntry d (l₁ ++ e :: l₂) = some e)
  ∧ (∀ l₁ e l₂, d.isInstalled = false → d.isAppStore = false →
      (∀ x ∈ l₁, hostnameMatch d x = false) → hostnameMatch d e = true →
      resolveEntry d (l₁ ++ e :: l₂) = some e)
  ∧ (d.isInstalled = false → d.isAppStore = true → resolveEntry d l = none) := by
  refine ⟨?_, ?_, ?_, ?_⟩
  · unfold resolveEntry specResolve
    by_cases hi : d.isInstalled
    · simp [hi, find?_eq_firstWhere]
    · by_cases ha : d.isAppStore
      · simp [hi, ha]
      · simp [hi, ha, find?_eq_firstWhere]
  · intro l₁ e l₂ hi hnone he
    unfold resolveEntry
    rw [if_pos (by simp [hi])]
    induction l₁ with
    | nil => simp [List.find?_cons_of_pos _ he]
    | cons x xs ih =>
      have hx : installedMatch d x = false := hnone x (List.mem_cons_self _ _)
      simp only [List.cons_append]
      rw [List.find?_cons_of_neg _ (by simp [hx])]
      exact ih (fun y hy => hnone y (List.mem_cons_of_mem _ hy))
  · intro l₁ e l₂ hi ha hnone he
    unfold resolveEntry
    rw [if_neg (by simp [hi]), if_pos (by simp [ha])]
    induction l₁ with
    | nil => simp [List.find?_cons_of_pos _ he]
    | cons x xs ih =>
      have hx : hostnameMatch d x = false := hnone x (List.mem_cons_self _ _)
      simp only [List.cons_append]
      rw [List.find?_cons_of_neg _ (by simp [hx])]
      exact ih (fun y hy => hnone y (List.mem_cons_of_mem _ hy))
  · intro hi ha
    unfold resolveEntry
    rw [if_neg (by simp [hi]), if_neg (by simp [ha])]

/-- Witness for C3 at concrete data: two entries share the matching hostname
`example.com`; the resolver returns the first, deterministically. -/
theorem resolver_first_match_order_witness :
    resolveEntry exDomain ([] ++ exEntryHost :: [exEntryHost2]) = some exEntryHost :=
  (resolver_first_match_order exDomain [exEntryHost, exEntryHost2]).2.2.1
    [] exEntryHost [exEntryHost2] (by decide) (by decide)
    (by intro x hx; simp at hx) (by decide)

theorem authenticate_slots (i : Bool) (w : World) (st : Storage) :
    (authenticate i w st).2.dpaList = st.dpaList ∧
    (authenticate i w st).2.lastFetch = st.lastFetch := by
  unfold authenticate
  rcases h : (if i then w.interactiveAuth else w.silentAuth) with _ | t
  · simp
  · by_cases ht : t.isEmpty <;> simp [ht]

theorem obtainToken_slots (w : World) (st : Storage) :
    (obtainToken w st).2.1.dpaList = st.dpaList ∧
    (obtainToken w st).2.1.lastFetch = st.lastFetch := by
  unfold obtainToken
  by_cases hT : strTruthy st.supabase_token
  · simp [hT]
  · simpa [hT] using authenticate_slots false w st

theorem obtainToken_truthy (w : World) (st : Storage) :
    strTruthy (obtainToken w st).1 = tokenObtainable w st := by
  unfold obtainToken tokenObtainable
  by_cases hT : strTruthy st.supabase_token
  · simp [hT]
  · rw [if_neg hT]
    have hT2 : strTruthy st.supabase_token = false := Bool.eq_false_iff.mpr hT
    simp only [strTruthy] at hT2
    rcases hs : w.silentAuth with _ | t
    · simp [hT2, authenticate, hs, strTruthy]
    · by_cases ht : t.isEmpty <;> simp [hT2, authenticate, hs, ht, strTruthy]

theorem fetchAttempt_slots (w : World) (st1 : Storage) (auths : List Bool) :
    (fetchAttempt w st1 auths).state.dpaList = st1.dpaList ∧
    (fetchAttempt w st1 auths).state.lastFetch = st1.lastFetch := by
  unfold fetchAttempt
  rcases hr0 : w.responses.getD 0 .err with _ | ⟨s, b⟩
  · simp
  · by_cases h401 : s = 401
    · simp only [h401, if_pos rfl]
      rcases ha : (authenticate true w st1).1 with _ | t
      · simp [ha, (authenticate_slots true w st1).1, (authenticate_slots true w st1).2]
      · rcases hr1 : w.responses.getD 1 .err with _ | ⟨s2, b2⟩ <;>
          simp [ha, hr1, (authenticate_slots true w st1).1,
            (authenticate_slots true w st1).2]
    · simp [h401]

theorem fetchAttempt_count (w : World) (st1 : Storage) (auths : List Bool) :
    1 ≤ (fetchAttempt w st1 auths).fetchCount ∧
    (fetchAttempt w st1 auths).fetchCount ≤ 2 := by
  unfold fetchAttempt
  rcases hr0 : w.responses.getD 0 .err with _ | ⟨s, b⟩
  · simp
  · by_cases h401 : s = 401
    · simp only [h401, if_pos rfl]
      rcases ha : (authenticate true w st1).1 with _ | t
      · simp [ha]
      · rcases hr1 : w.responses.getD 1 .err with _ | ⟨s2, b2⟩ <;> simp [ha, hr1]
    · simp [h401]

theorem fetchDpaData_slots (w : World) (st : Storage) :
    (fetchDpaData w st).state.dpaList = st.dpaList ∧
    (fetchDpaData w st).state.lastFetch = st.lastFetch := by
  unfold fetchDpaData
  by_cases hp : strTruthy (obtainToken w st).1 = false
  · rw [if_pos hp]
    exact ⟨(obtainToken_slots w st).1, (obtainToken_slots w st).2⟩
  · rw [if_neg hp]
    refine ⟨?_, ?_⟩
    · rw [(fetchAttempt_slots w _ _).1, (obtainToken_slots w st).1]
    · rw [(fetchAttempt_slots w _ _).2, (obtainToken_slots w st).2]

theorem fetchDpaData_count (w : World) (st : Storage) :
    (fetchDpaData w st).fetchCount ≤ 2 := by
  unfold fetchDpaData
  by_cases hp : strTruthy (obtainToken w st).1 = false
  · simp [hp]
  · rw [if_neg hp]
    exact (fetchAttempt_count w _ _).2

theorem authenticate_interactive_isSome (w : World) (st : Storage) :
    (authenticate true w st).1.isSome = strTruthy w.interactiveAuth := by
  unfold authenticate
  rcases hi : w.interactiveAuth with _ | t
  · simp [hi, strTruthy]
  · by_cases ht : t.isEmpty <;> simp [hi, ht, strTruthy]

theorem fetchDpaData_eq_attempt (w : World) (st : Storage)
    (hT : tokenObtainable w st = true) :
    fetchDpaData w st =
      fetchAttempt w (obtainToken w st).2.1 (obtainToken w st).2.2 := by
  unfold fetchDpaData
  rw [if_neg]
  rw [obtainToken_truthy, hT]
  simp

theorem obtainToken_authCalls (w : World) (st : Storage) :
    (obtainToken w st).2.2 = [] ∨ (obtainToken w st).2.2 = [false] := by
  unfold obtainToken
  by_cases hT : strTruthy st.supabase_token <;> simp [hT]

theorem fetchAttempt_401 (w : World) (st1 : Storage) (auths : List Bool)
    (b : List ListEntry) (h0 : w.responses.getD 0 .err = .resp 401 b) :
    (fetchAttempt w st1 auths).authCalls = auths ++ [true]
  ∧ ((authenticate true w st1).1.isSome = true →
      (fetchAttempt w st1 auths).fetchCount = 2)
  ∧ ((authenticate true w st1).1.isSome = false →
      (fetchAttempt w st1 auths).fetchCount = 1 ∧
      (fetchAttempt w st1 auths).value = none) := by
  unfold fetchAttempt
  rw [h0]
  simp only [if_pos rfl]
  rcases ha : (authenticate true w st1).1 with _ | t
  · refine ⟨by simp, by simp [ha], ?_⟩
    intro _
    constructor
    · simp
    · show (if respOk 401 then some b else none) = none
      rw [if_neg (by decide)]
  · rcases hr1 : w.responses.getD 1 .err with _ | ⟨s2, b2⟩ <;>
      simp [ha, hr1]

theorem fetchAttempt_401_retry_ok (w : World) (st1 : Storage) (auths : List Bool)
    (b : List ListEntry) (t : Str) (s2 : Nat) (b2 : List ListEntry)
    (h0 : w.responses.getD 0 .err = .resp 401 b)
    (hi : w.interactiveAuth = some t) (ht : t.isEmpty = false)
    (h1 : w.responses.getD 1 .err = .resp s2 b2) (hok : respOk s2) :
    (fetchAttempt w st1 auths).value = some b2 ∧
    (fetchAttempt w st1 auths).fetchCount = 2 := by
  have ha : (authenticate true w st1).1 = some t := by
    unfold authenticate
    simp [hi, ht]
  unfold fetchAttempt
  rw [h0]
  simp only [if_pos rfl]
  rw [ha]
  simp only [h1]
  rw [if_pos hok]
  exact ⟨rfl, rfl⟩

theorem getAndUpdate_of_fetch_fail (now : Nat) (w : World) (st : Storage)
    (hf : (fetchDpaData w st).value = none) :
    (getAndUpdateDpaList now w st).cacheWrites = []
  ∧ (getAndUpdateDpaList now w st).state.dpaList = st.dpaList
  ∧ (getAndUpdateDpaList now w st).state.lastFetch = st.lastFetch
  ∧ (getAndUpdateDpaList now w st).value = st.dpaList := by
  unfold getAndUpdateDpaList
  by_cases hc : cacheFresh now st = true
  · rw [if_pos hc]
    exact ⟨rfl, rfl, rfl, rfl⟩
  · rw [if_neg hc]
    simp [hf, (fetchDpaData_slots w st).1, (fetchDpaData_slots w st).2]

theorem getAndUpdate_of_fetch_ok (now : Nat) (w : World) (st : Storage)
    (l : List ListEntry) (hc : cacheFresh now st = false)
    (hf : (fetchDpaData w st).value = some l) :
    (getAndUpdateDpaList now w st).cacheWrites = [(l, now)]
  ∧ (getAndUpdateDpaList now w st).value = some l := by
  unfold getAndUpdateDpaList
  rw [if_neg (by simp [hc])]
  simp [hf]

/-- C4: the fetch protocol performs at most two requests in total; a first
401 response triggers exactly one interactive authentication, and when it
yields a token the request is retried exactly once (no token: no retry and
a null result); any fetch failure leaves the cache slots unmodified; a 401
followed by a successful retry causes exactly one cache write, whose
payload is the retried response's list. -/
theorem sync_401_retry_protocol (now : Nat) (w : World) (st : Storage) :
    (fetchDpaData w st).fetchCount ≤ 2
  ∧ (∀ b, tokenObtainable w st = true →
        w.responses.getD 0 .err = .resp 401 b →
        (fetchDpaData w st).authCalls.count true = 1
      ∧ (strTruthy w.interactiveAuth = true → (fetchDpaData w st).fetchCount = 2)
      ∧ (strTruthy w.interactiveAuth = false →
          (fetchDpaData w st).fetchCount = 1 ∧ (fetchDpaData w st).value = none))
  ∧ ((fetchDpaData w st).value = none →
        (getAndUpdateDpaList now w st).cacheWrites = []
      ∧ (getAndUpdateDpaList now w st).state.dpaList = st.dpaList
      ∧ (getAndUpdateDpaList now w st).state.lastFetch = st.lastFetch)
  ∧ (∀ b t s2 b2, cacheFresh now st = false → tokenObtainable w st = true →
        w.responses.getD 0 .err = .resp 401 b →
        w.interactiveAuth = some t → t.isEmpty = false →
        w.responses.getD 1 .err = .resp s2 b2 → respOk s2 →
        (getAndUpdateDpaList now w st).cacheWrites = [(b2, now)]
      ∧ (getAndUpdateDpaList now w st).value = some b2) := by
  refine ⟨fetchDpaData_count w st, ?_, ?_, ?_⟩
  · intro b hT h0
    rw [fetchDpaData_eq_attempt w st hT]
    have h401 := fetchAttempt_401 w (obtainToken w st).2.1 (obtainToken w st).2.2 b h0
    refine ⟨?_, ?_, ?_⟩
    · rw [h401.1]
      rcases obtainToken_authCalls w st with h | h <;> rw [h] <;> decide
    · intro hi
      exact h401.2.1 (by rw [authenticate_interactive_isSome, hi])
    · intro hi
      exact h401.2.2 (by rw [authenticate_interactive_isSome, hi])
  · intro hf
    exact ⟨(getAndUpdate_of_fetch_fail now w st hf).1,
      (getAndUpdate_of_fetch_fail now w st hf).2.1,
      (getAndUpdate_of_fetch_fail now w st hf).2.2.1⟩
  · intro b t s2 b2 hc hT h0 hi ht h1 hok
    have hval : (fetchDpaData w st).value = some b2 := by
      rw [fetchDpaData_eq_attempt w st hT]
      exact (fetchAttempt_401_retry_ok w _ _ b t s2 b2 h0 hi ht h1 hok).1
    exact getAndUpdate_of_fetch_ok now w st b2 hc hval

/-- Witness for C4: concrete 401-then-success run writes the cache exactly
once, with the retried payload. -/
theorem sync_401_retry_protocol_witness :
    (getAndUpdateDpaList 5 w401 stTok).cacheWrites = [([exEntryHost], 5)]
  ∧ (getAndUpdateDpaList 5 w401 stTok).value = some [exEntryHost] :=
  (sync_401_retry_protocol 5 w401 stTok).2.2.2 [] "tokB".toList 200 [exEntryHost]
    (by decide) (by decide) (by decide) (by decide) (by decide) (by decide)
    (by decide)

/-- Fresh-cache short-circuit of `getAndUpdateDpaList` (shared helper). -/
theorem getAndUpdate_fresh (now : Nat) (w : World) (st : Storage)
    (l : List ListEntry) (f : Nat) (hd : st.dpaList = some l)
    (hf : st.lastFetch = some f) (h0 : f ≠ 0)
    (hage : (now : Int) - (f : Int) < CACHE_MS) :
    getAndUpdateDpaList now w st =
      { value := some l, state := st, fetchCount := 0, authCalls := [],
        cacheWrites := [] } := by
  have hc : cacheFresh now st = true := by
    unfold cacheFresh
    rw [hd, hf]
    simp [h0, hage]
  unfold getAndUpdateDpaList
  rw [if_pos hc, hd]

/-- C5: `getAndUpdateDpaList` returns null only when no cached list exists
and the fetch does not succeed; whenever the fetch path fails, the (stale)
cached list is what is returned. -/
theorem getList_null_contract (now : Nat) (w : World) (st : Storage) :
    ((getAndUpdateDpaList now w st).value = none →
        st.dpaList = none ∧ (fetchDpaData w st).value = none)
  ∧ ((fetchDpaData w st).value = none →
        (getAndUpdateDpaList now w st).value = st.dpaList) := by
  constructor
  · intro hv
    by_cases hc : cacheFresh now st = true
    · exfalso
      have hnone : st.dpaList = none := by
        unfold getAndUpdateDpaList at hv
        rw [if_pos hc] at hv
        exact hv
      unfold cacheFresh at hc
      rw [hnone] at hc
      simp at hc
    · unfold getAndUpdateDpaList at hv
      rw [if_neg hc] at hv
      rcases hf : (fetchDpaData w st).value with _ | l
      · simp only [hf] at hv
        exact ⟨by simpa using hv, rfl⟩
      · simp only [hf] at hv
        simp at hv
  · intro hf
    exact (getAndUpdate_of_fetch_fail now w st hf).2.2.2

/-- Witness for C5: with a cached list and a failing fetch, the stale cached
list is returned instead of null. -/
theorem getList_null_contract_witness :
    (getAndUpdateDpaList 200000000 wAllFail stCache).value = stCache.dpaList :=
  (getList_null_contract 200000000 wAllFail stCache).2 (by decide)

/-- C6: with a cached record younger than the 24-hour TTL, the cached list
is returned, the state is untouched, and the fetch capability is never
invoked. -/
theorem fresh_cache_no_network (now : Nat) (w : World) (st : Storage)
    (l : List ListEntry) (f : Nat) (hd : st.dpaList = some l)
    (hf : st.lastFetch = some f) (h0 : 0 < f)
    (hage : (now : Int) - (f : Int) < CACHE_MS) :
    getAndUpdateDpaList now w st =
      { value := some l, state := st, fetchCount := 0, authCalls := [],
        cacheWrites := [] } :=
  getAndUpdate_fresh now w st l f hd hf h0.ne' hage

/-- Witness for C6 at a concrete fresh cache. -/
theorem fresh_cache_no_network_witness :
    getAndUpdateDpaList 200 wAllFail stCache =
      { value := some [exEntryHost], state := stCache, fetchCount := 0,
        authCalls := [], cacheWrites := [] } :=
  fresh_cache_no_network 200 wAllFail stCache [exEntryHost] 100 rfl rfl
    (by decide) (by decide)

/-- C9 counterexample: with a cached empty array and a fresh timestamp the
freshness check passes (no fetch is attempted) and the empty list — not
null — is returned; with a stale timestamp and a failing fetch the cached
empty list — not null — is returned. -/
theorem empty_cache_counterexample :
    (getAndUpdateDpaList 200 wAllFail stEmptyCache).fetchCount = 0
  ∧ (getAndUpdateDpaList 200 wAllFail stEmptyCache).value = some []
  ∧ (getAndUpdateDpaList 200000000 wAllFail stEmptyCache).value = some [] := by
  decide

/-- C9 amended: a cached empty array is treated like any other cached list —
the freshness check passes for a fresh (nonzero) timestamp, returning the
empty list with no fetch, and when the fetch fails the cached empty list
(not null) is returned. -/
theorem empty_cache_amended (now : Nat) (w : World) (st : Storage)
    (hd : st.dpaList = some []) :
    (∀ f, st.lastFetch = some f → 0 < f →
        (now : Int) - (f : Int) < CACHE_MS →
        getAndUpdateDpaList now w st =
          { value := some [], state := st, fetchCount := 0, authCalls := [],
            cacheWrites := [] })
  ∧ ((fetchDpaData w st).value = none →
        (getAndUpdateDpaList now w st).value = some []) := by
  constructor
  · intro f hf h0 hage
    exact getAndUpdate_fresh now w st [] f hd hf h0.ne' hage
  · intro hfail
    rw [(getAndUpdate_of_fetch_fail now w st hfail).2.2.2, hd]

/-- Witness for the amended C9 at the concrete empty-array cache. -/
theorem empty_cache_amended_witness :
    getAndUpdateDpaList 200 wAllFail stEmptyCache =
      { value := some [], state := stEmptyCache, fetchCount := 0,
        authCalls := [], cacheWrites := [] } :=
  (empty_cache_amended 200 wAllFail stEmptyCache rfl).1 100 rfl (by decide)
    (by decide)

/-- C7 counterexample: on an empty cache with a token at hand and a
succeeding endpoint, the message handler replies with an error and performs
no fetch, while the spec's pipeline through `getList()` would fetch once
and reply with the resolved entry — so the handler does not invoke
`getList()`. -/
theorem query_pipeline_counterexample :
    getSiteInfoForUrl (some "https://www.example.com/x".toList) stTok =
      .failure "DPA data is not yet available.".toList
  ∧ (specQueryPipeline (some "https://www.example.com/x".toList) 5 wList stTok).1 =
      .ok (some exEntryHost) exDomain "approved".toList
  ∧ (specQueryPipeline (some "https://www.example.com/x".toList) 5 wList stTok).2 = 1 := by
  decide

/-- C7 amended: the handler classifies the URL and reads the cached list
directly from storage, without invoking `getList()` (no fetch, no refresh);
with a cached list it replies with the resolver's entry, the domain info
and the derived status; it replies with an error when the URL is invalid or
no cached list exists. -/
theorem query_handler_amended (url : Option Str) (st : Storage) :
    (getDomainInfo url = none →
        getSiteInfoForUrl url st = .failure "Invalid URL provided.".toList)
  ∧ (∀ d, getDomainInfo url = some d → st.dpaList = none →
        getSiteInfoForUrl url st = .failure "DPA data is not yet available.".toList)
  ∧ (∀ d l, getDomainInfo url = some d → st.dpaList = some l →
        getSiteInfoForUrl url st =
          .ok (resolveEntry d l) d (determineOverallStatus (resolveEntry d l))) := by
  refine ⟨?_, ?_, ?_⟩
  · intro h
    unfold getSiteInfoForUrl
    rw [h]
  · intro d hd hl
    unfold getSiteInfoForUrl
    rw [hd, hl]
  · intro d l hd hl
    unfold getSiteInfoForUrl
    rw [hd, hl]

/-- Witness for the amended C7 at a concrete URL and cached list. -/
theorem query_handler_amended_witness :
    getSiteInfoForUrl (some "https://www.example.com/x".toList) stCache =
      .ok (resolveEntry exDomain [exEntryHost]) exDomain
        (determineOverallStatus (resolveEntry exDomain [exEntryHost])) :=
  (query_handler_amended (some "https://www.example.com/x".toList) stCache).2.2
    exDomain [exEntryHost] (by decide) (by decide)

/-- C8: on host `workspace.google.com` the classifier assigns as appID the
last path segment exactly when the path starts with `/marketplace/app/`
and that segment is entirely numeric; non-numeric candidates are
discarded.  Includes the spec's two concrete examples. -/
theorem workspace_numeric_appid :
    (∀ (u : URLClass) (rest : Str), u.hostname = "workspace.google.com".toList →
        u.pathname = '/' :: rest →
        (getDomainInfoOfURL u).appID = specWorkspaceAppID u.pathname)
  ∧ (getDomainInfo
        (some "https://workspace.google.com/marketplace/app/Foo/abc".toList)).map
        DomainInfo.appID = some none
  ∧ (getDomainInfo
        (some "https://workspace.google.com/marketplace/app/Foo/123".toList)).map
        DomainInfo.appID = some (some "123".toList) := by
  refine ⟨?_, by decide, by decide⟩
  intro u rest hh hp
  have hf : appStoreFields u =
      (workspaceAppID u.pathname, true, some "Google Workspace Marketplace".toList) := by
    unfold appStoreFields
    rw [if_neg (by rw [hh]; decide), if_neg (by rw [hh]; decide),
        if_neg (by rw [hh]; decide), if_pos hh]
  have hmain : (getDomainInfoOfURL u).appID = workspaceAppID u.pathname := by
    unfold getDomainInfoOfURL
    rw [hf]
  rw [hmain, hp]
  exact workspaceAppID_eq_spec rest

/-- Witness for C8 at the concrete marketplace URL. -/
theorem workspace_numeric_appid_witness :
    (getDomainInfoOfURL wsURL).appID = specWorkspaceAppID wsURL.pathname :=
  workspace_numeric_appid.1 wsURL "marketplace/app/Foo/123".toList rfl rfl

/-- C10: the classifier can produce `appID = ""` with `isInstalled = true` —
an apple path containing `/app/` and ending in `/`, or a play store
details URL with an empty `id` parameter — and the installed-app matcher
then matches such empty identifiers across different stores. -/
theorem classify_empty_string_appid :
    (getDomainInfo (some "https://apps.apple.com/us/app/foo/".toList)).map
        (fun d => (d.appID, d.isInstalled)) = some (some [], true)
  ∧ (getDomainInfo (some "https://play.google.com/store/apps/details?id=".toList)).map
        (fun d => (d.appID, d.isInstalled)) = some (some [], true)
  ∧ (getDomainInfo (some "https://play.google.com/store/apps/details?id=".toList)).map
        (fun d => resolveEntry d [appleEmptyEntry]) = some (some appleEmptyEntry) := by
  decide
